import Mathlib

/-!
Verification development for the privacy-preserving analytics platform.

The embedding covers the two components the claims are about:

* `backend/verifier.js` (attestation verifier): `verifyTdxQuote`,
  `verifyReportDataBinding`, `verifyResultSignature`, `verifyAttestation`,
  and the canonicalizer `sortKeysRecursively` + `JSON.stringify`.
* `backend/server.js` (job orchestrator): the retry loop of `processJob`
  and the terminal job-record updates.

JavaScript values are modelled by the `Json` type below; JS `undefined` is
collapsed into `Json.null` wherever only truthiness or strict comparison with
`true` matters (which is every use site in the source), and kept as `Option`
where the code distinguishes a missing field on a stored record.  Network
calls (the quote-verification oracle, the analytics POST) are modelled by
explicit outcome values passed in, and elliptic-curve recovery
(`ethers.verifyMessage`) by an abstract function argument, since its
behaviour is a property of the crypto library, not of this repository.
JS numbers are carried by their serialized literal (`Json.num`), as the
canonicalizer never rewrites a number.
-/

/-- Model of a JSON/JS value.  Object fields are kept in insertion order, as
in a JS object; the source never builds objects with integer-like keys, so
plain insertion-order enumeration matches `Object.keys`/`JSON.stringify`. -/
inductive Json where
  | null : Json
  | bool (b : Bool) : Json
  | num (lit : String) : Json
  | str (s : String) : Json
  | arr (xs : List Json) : Json
  | obj (fields : List (String × Json)) : Json

/-- JS truthiness.  `null`/`undefined`, `false`, `0`, `NaN` and `""` are
falsy; arrays and objects are always truthy.  Numbers are compared through
their literal; no branch of the source depends on numeric truthiness. -/
def jsTruthy : Json → Bool
  | .null => false
  | .bool b => b
  | .num lit => !(lit == "0" || lit == "-0" || lit == "NaN")
  | .str s => !(s.toList.isEmpty)
  | .arr _ => true
  | .obj _ => true

/-- Field access that remembers absence (`undefined`), used where the code
stores a possibly-missing field on a record. -/
def getFieldOpt : Json → String → Option Json
  | .obj fields, key => (fields.find? (fun p => p.1 == key)).map (fun p => p.2)
  | _, _ => none

/-- Field access in expression position: a missing field (`undefined`) is
collapsed to `null`, which is equivalent at every use site (truthiness tests
and strict comparison with `true`). -/
def getF (j : Json) (key : String) : Json := (getFieldOpt j key).getD .null

/-- JS `a || b`. -/
def jsOrJ (a b : Json) : Json := if jsTruthy a then a else b

/-- JS strict comparison `x === true`. -/
def isTrueJ : Json → Bool
  | .bool true => true
  | _ => false

/-- Truthiness of a JS string value. -/
def truthyStr (s : String) : Bool := !(s.toList.isEmpty)

/-- Truthiness of a possibly-`undefined` JS string. -/
def truthyOptStr : Option String → Bool
  | none => false
  | some s => truthyStr s

/-- ASCII lower-casing of one character, the behaviour of JS
`toLowerCase()` on the hex/address alphabet used by the source. -/
def asciiLower (c : Char) : Char :=
  if 65 ≤ c.toNat ∧ c.toNat ≤ 90 then Char.ofNat (c.toNat + 32) else c

/-- JS `s.toLowerCase()` on ASCII strings. -/
def lowerStr (s : String) : String := String.mk (s.toList.map asciiLower)

/-- JS `s.startsWith('0x') ? s.slice(2) : s`. -/
def stripHex (s : String) : String :=
  match s.toList with
  | '0' :: 'x' :: rest => String.mk rest
  | _ => s

/-- JS `signature.startsWith('0x') ? signature : '0x' + signature`
(verifier.js line 214). -/
def sig0x (s : String) : String :=
  match s.toList with
  | '0' :: 'x' :: _ => s
  | _ => "0x" ++ s

/-- Value of one hex digit, accepting both cases like `Buffer.from(_, 'hex')`. -/
def hexVal (c : Char) : Option Nat :=
  let n := c.toNat
  if 48 ≤ n ∧ n ≤ 57 then some (n - 48)
  else if 97 ≤ n ∧ n ≤ 102 then some (n - 87)
  else if 65 ≤ n ∧ n ≤ 70 then some (n - 55)
  else none

/-- Node `Buffer.from(str, 'hex')`: decode pairs of hex digits, stopping at
the first invalid or incomplete pair. -/
def hexDecode : List Char → List Nat
  | c1 :: c2 :: rest =>
    match hexVal c1, hexVal c2 with
    | some a, some b => (16 * a + b) :: hexDecode rest
    | _, _ => []
  | _ => []

/-- Lower-case hex digit for a value below 16. -/
def hexDigitCh (n : Nat) : Char := Char.ofNat (if n < 10 then 48 + n else 87 + n)

/-- Node `buffer.toString('hex')` (lower-case) as a character list. -/
def hexEncodeL : List Nat → List Char
  | [] => []
  | b :: bs => hexDigitCh (b / 16) :: hexDigitCh (b % 16) :: hexEncodeL bs

/-- Node `buffer.toString('hex')` (lower-case). -/
def hexEncode (bs : List Nat) : String := String.mk (hexEncodeL bs)

/-- Ordering of object fields by key, the comparison used by JS
`Object.keys(obj).sort()` (code-unit order; keys in this code are ASCII). -/
def keyLE (a b : String × Json) : Prop := a.1 ≤ b.1

instance : DecidableRel keyLE := fun a b => inferInstanceAs (Decidable (a.1 ≤ b.1))

instance : IsTotal (String × Json) keyLE := ⟨fun a b => le_total a.1 b.1⟩

instance : IsTrans (String × Json) keyLE := ⟨fun _ _ _ => le_trans⟩

/-- Sorting of an object's field list by key, the effect of
`Object.keys(obj).sort()` followed by re-insertion in sorted order. -/
def sortPairs (l : List (String × Json)) : List (String × Json) :=
  List.insertionSort keyLE l

mutual

/-- `sortKeysRecursively` from verifier.js lines 178-190: recursively sort
all object keys, leaving arrays in order and primitives untouched. -/
def sortKeysRecursively : Json → Json
  | .null => .null
  | .bool b => .bool b
  | .num lit => .num lit
  | .str s => .str s
  | .arr xs => .arr (sortKeysList xs)
  | .obj l => .obj (sortPairs (sortKeysFields l))

def sortKeysList : List Json → List Json
  | [] => []
  | x :: xs => sortKeysRecursively x :: sortKeysList xs

def sortKeysFields : List (String × Json) → List (String × Json)
  | [] => []
  | p :: ps => (p.1, sortKeysRecursively p.2) :: sortKeysFields ps

end

/-- Join a list of strings with a separator. -/
def mkJoin (sep : String) : List String → String
  | [] => ""
  | [x] => x
  | x :: xs => x ++ sep ++ mkJoin sep xs

/-- JSON string escaping as performed by `JSON.stringify`. -/
def escChar (c : Char) : String :=
  if c = '"' then "\\\""
  else if c = '\\' then "\\\\"
  else if c = '\n' then "\\n"
  else if c = '\r' then "\\r"
  else if c = '\t' then "\\t"
  else if c.toNat < 32 then
    String.mk ['\\', 'u', '0', '0', hexDigitCh (c.toNat / 16), hexDigitCh (c.toNat % 16)]
  else String.mk [c]

/-- Quoted, escaped JSON string literal. -/
def quoteStr (s : String) : String := "\"" ++ String.join (s.toList.map escChar) ++ "\""

mutual

/-- Compact `JSON.stringify` (no spaces), enumerating object fields in
stored order. -/
def stringify : Json → String
  | .null => "null"
  | .bool true => "true"
  | .bool false => "false"
  | .num lit => lit
  | .str s => quoteStr s
  | .arr xs => "[" ++ mkJoin "," (stringifyList xs) ++ "]"
  | .obj l => "\x7b" ++ mkJoin "," (stringifyFields l) ++ "\x7d"

def stringifyList : List Json → List String
  | [] => []
  | x :: xs => stringify x :: stringifyList xs

def stringifyFields : List (String × Json) → List String
  | [] => []
  | p :: ps => (quoteStr p.1 ++ ":" ++ stringify p.2) :: stringifyFields ps

end

/-- The canonical byte string signed and re-verified:
`JSON.stringify(sortKeysRecursively(x))` (verifier.js lines 192-195). -/
def canonicalize (x : Json) : String := stringify (sortKeysRecursively x)

/-- The attestation bundle as consumed by the verifier.  `intel_quote` is
`null` (`none`) in simulation mode.  The remaining fields are the hex-string
encodings that travel on the wire. -/
structure Attestation where
  intel_quote : Option String
  signing_address : String
  signature : String
  nonce : String

/-- Outcome of the axios POST to the remote quote-verification oracle:
either the parsed response body (`response.data`) or the message of the
thrown error (network failure, timeout, or a non-2xx status, which default
axios validation turns into an exception). -/
def OracleOutcome : Type := Except String Json

/-- Abstract model of `ethers.verifyMessage`: given the message and the
0x-prefixed signature it yields the recovered address, or the message of a
thrown error when the signature is undecodable. -/
def RecoverFn : Type := String → String → Except String String

/-- Result object of `verifyTdxQuote`.  The narrative `note` field of the
source is dropped; `message` is the JS `payload.message || intelResult.message`. -/
structure TdxResult where
  verified : Bool
  intelResult : Option Json
  error : Option String
  message : Json

/-- Result object of `verifyReportDataBinding`. -/
structure BindingResult where
  bindsAddress : Bool
  embedsNonce : Bool
  error : Option String
  embeddedAddress : Option String
  embeddedNonce : Option String
  expectedAddress : Option String
  expectedNonce : Option String

/-- Result object of `verifyResultSignature`.  The `messageHash`, narrative
`message` and `debug` fields of the source are dropped; they are sha256 /
logging output and feed into no decision. -/
structure SigResult where
  verified : Bool
  error : Option String
  recoveredAddress : Option String
  expectedAddress : Option String

/-- Combined result object of `verifyAttestation`. -/
structure VerificationResults where
  tdxQuote : TdxResult
  reportDataBinding : Option BindingResult
  resultSignature : SigResult
  overall : Bool

/-- `verifyTdxQuote` (verifier.js lines 23-57).  The axios call is the
`oracle` argument; a thrown error (network failure or non-2xx status) is the
`Except.error` case and lands in the catch block.  Accessing `.quote` on a
null response body throws a TypeError inside the try block, which the same
catch turns into a failure result. -/
def verifyTdxQuote (intelQuote : Option String) (oracle : OracleOutcome) : TdxResult :=
  if !(truthyOptStr intelQuote) then
    { verified := false, intelResult := none,
      error := some "Intel quote is null (simulation mode - no TEE hardware)",
      message := Json.null }
  else
    match oracle with
    | .error m =>
      { verified := false, intelResult := none, error := some m, message := Json.null }
    | .ok intelResult =>
      match intelResult with
      | .null =>
        { verified := false, intelResult := none,
          error := some "Cannot read properties of null", message := Json.null }
      | ir =>
        let payload := jsOrJ (getF ir "quote") (Json.obj [])
        { verified := isTrueJ (getF payload "verified"),
          intelResult := some ir,
          error := none,
          message := jsOrJ (getF payload "message") (getF ir "message") }

/-- `verifyReportDataBinding` (verifier.js lines 62-128).  All operations in
the try block are total in this model, so the only error exits are the two
explicit early returns plus the TypeError raised when the report-data field
is a truthy non-string. -/
def verifyReportDataBinding (att : Attestation) (requestNonce : String)
    (intelResult : Json) : BindingResult :=
  if !(jsTruthy intelResult && jsTruthy (getF intelResult "quote")) then
    { bindsAddress := false, embedsNonce := false, error := some "Intel result missing",
      embeddedAddress := none, embeddedNonce := none,
      expectedAddress := none, expectedNonce := none }
  else
    match getF (getF (getF intelResult "quote") "body") "reportdata" with
    | .str reportDataHex =>
      if !(truthyStr reportDataHex) then
        { bindsAddress := false, embedsNonce := false,
          error := some "Report data not found in quote",
          embeddedAddress := none, embeddedNonce := none,
          expectedAddress := none, expectedNonce := none }
      else
        let reportData := hexDecode (stripHex reportDataHex).toList
        let signingAddressBytes := hexDecode (stripHex att.signing_address).toList
        let embeddedAddress := reportData.take 32
        let embeddedNonce := (reportData.drop 32).take 32
        let paddedAddress :=
          signingAddressBytes.take 32 ++ List.replicate (32 - signingAddressBytes.length) 0
        let bindsAddress := embeddedAddress == paddedAddress
        let embeddedNonceHex := hexEncode embeddedNonce
        let requestNonceHex := stripHex requestNonce
        let embedsNonce := embeddedNonceHex == requestNonceHex
        { bindsAddress := bindsAddress, embedsNonce := embedsNonce, error := none,
          embeddedAddress := some (hexEncode embeddedAddress),
          embeddedNonce := some embeddedNonceHex,
          expectedAddress := some (hexEncode paddedAddress),
          expectedNonce := some requestNonceHex }
    | j =>
      if jsTruthy j then
        -- calling .startsWith on a truthy non-string report-data field
        -- throws a TypeError, caught by the surrounding catch block
        { bindsAddress := false, embedsNonce := false,
          error := some "reportDataHex.startsWith is not a function",
          embeddedAddress := none, embeddedNonce := none,
          expectedAddress := none, expectedNonce := none }
      else
        { bindsAddress := false, embedsNonce := false,
          error := some "Report data not found in quote",
          embeddedAddress := none, embeddedNonce := none,
          expectedAddress := none, expectedNonce := none }

/-- JS `result && result.result ? result.result : result` — the unwrapping
of the nested backend shape at verifier.js lines 152-160. -/
def unwrapResult (result : Json) : Json :=
  if jsTruthy result && jsTruthy (getF result "result") then getF result "result" else result

/-- Structure guard at verifier.js line 163: the analytics result must carry
a truthy `risk_metrics` or `privacy_budget` field. -/
def structureOk (analyticsResult : Json) : Bool :=
  jsTruthy analyticsResult &&
    (jsTruthy (getF analyticsResult "risk_metrics") ||
      jsTruthy (getF analyticsResult "privacy_budget"))

/-- `verifyResultSignature` (verifier.js lines 137-271).  The fourth
(attestation) parameter of the source feeds only console logging and is
dropped.  `recover` abstracts `ethers.verifyMessage`; its `Except.error`
case is the catch block at lines 252-270. -/
def verifyResultSignature (recover : RecoverFn) (result : Json)
    (signature : String) (signingAddress : String) : SigResult :=
  let analyticsResult := unwrapResult result
  if !(structureOk analyticsResult) then
    { verified := false,
      error := some "Invalid result structure - missing risk_metrics or privacy_budget",
      recoveredAddress := none, expectedAddress := none }
  else
    let resultJson := canonicalize analyticsResult
    let signatureWithPfx := sig0x signature
    if signatureWithPfx.length ≠ 132 then
      { verified := false,
        error := some ("Invalid signature length: " ++ toString signatureWithPfx.length
          ++ " (expected 132)"),
        recoveredAddress := none, expectedAddress := none }
    else
      match recover resultJson signatureWithPfx with
      | .error m =>
        { verified := false, error := some m,
          recoveredAddress := none, expectedAddress := none }
      | .ok recoveredAddress =>
        { verified := lowerStr recoveredAddress == lowerStr signingAddress,
          error := none,
          recoveredAddress := some recoveredAddress,
          expectedAddress := some signingAddress }

/-- Truthiness of the stored `intelResult` field when read back in
`verifyAttestation` (`verificationResults.tdxQuote.intelResult && ...`). -/
def intelTruthy : Option Json → Bool
  | none => false
  | some j => jsTruthy j

/-- `verifyAttestation` (verifier.js lines 276-331). -/
def verifyAttestation (recover : RecoverFn) (oracle : OracleOutcome)
    (att : Attestation) (result : Json) (requestNonce : Option String) :
    VerificationResults :=
  let tdxQuote :=
    if truthyOptStr att.intel_quote then
      verifyTdxQuote att.intel_quote oracle
    else
      { verified := false, intelResult := none,
        error := some "Intel quote missing", message := Json.null }
  let reportDataBinding :=
    if intelTruthy tdxQuote.intelResult && truthyOptStr requestNonce then
      some (verifyReportDataBinding att (requestNonce.getD "") (tdxQuote.intelResult.getD .null))
    else
      none
  let resultSignature :=
    if truthyStr att.signature && truthyStr att.signing_address && jsTruthy result then
      verifyResultSignature recover result att.signature att.signing_address
    else
      { verified := false, error := some "Missing signature components",
        recoveredAddress := none, expectedAddress := none }
  { tdxQuote := tdxQuote,
    reportDataBinding := reportDataBinding,
    resultSignature := resultSignature,
    overall := resultSignature.verified && (tdxQuote.verified || !truthyOptStr att.intel_quote) }

/-- Outcome of one attempt of the axios POST to the analytics endpoint
(server.js lines 196-206): either a thrown network-level error (connection
reset, TLS failure, timeout) or an HTTP response with its status and body. -/
inductive AttemptOutcome where
  | netError (message : String)
  | httpResp (status : Nat) (data : Json)

/-- A thrown axios error: either network-level, or a response whose status
was rejected by `validateStatus` (carrying `error.response`). -/
inductive JsError where
  | net (message : String)
  | http (status : Nat) (data : Json) (message : String)

/-- Message of the axios error thrown for a rejected status. -/
def axiosStatusMessage (status : Nat) : String :=
  "Request failed with status code " ++ toString status

/-- Effect of `validateStatus: (status) => status < 500` (server.js line
203): any response below 500 resolves, anything else (and any network
error) throws. -/
def attemptResult : AttemptOutcome → Except JsError Json
  | .netError m => .error (.net m)
  | .httpResp s d => if s < 500 then .ok d else .error (.http s d (axiosStatusMessage s))

/-- `maxRetries = 5` (server.js line 177). -/
def maxRetries : Nat := 5

/-- Backoff before the next attempt: `Math.min(2000 * attempt, 10000)`
(server.js line 216), in milliseconds. -/
def delayOf (attempt : Nat) : Nat := min (2000 * attempt) 10000

/-- Observable trace of the retry loop: how many attempts were made, the
delays waited after failed attempts, and the final outcome (the resolved
response body, or the error rethrown after the last attempt). -/
structure Trace where
  attempts : Nat
  delays : List Nat
  outcome : Except JsError Json

/-- The retry loop of `processJob` (server.js lines 180-224), from a given
attempt number.  The loop runs while `attempt <= maxRetries`; the `fuel`
argument only bounds the recursion and equals the number of loop iterations
still allowed, so it is never exhausted when starting from attempt 1 with
fuel `maxRetries`. -/
def retryFrom (call : Nat → AttemptOutcome) : Nat → Nat → Trace
  | _, 0 => ⟨0, [], .error (.net "unreachable: fuel exhausted")⟩
  | attempt, fuel + 1 =>
    match attemptResult (call attempt) with
    | .ok d => ⟨1, [], .ok d⟩
    | .error e =>
      if attempt < maxRetries then
        let t := retryFrom call (attempt + 1) fuel
        ⟨t.attempts + 1, delayOf attempt :: t.delays, t.outcome⟩
      else ⟨1, [], .error e⟩

/-- The full retry loop, started at attempt 1. -/
def retryLoop (call : Nat → AttemptOutcome) : Trace := retryFrom call 1 maxRetries

/-- Error message stored on a failed job (server.js lines 240-241):
`error.response?.data?.error || error.response?.data || error.message`,
stringified unless already a string. -/
def errorMsgOf : JsError → String
  | .net m => m
  | .http _ d m =>
    let v := jsOrJ (getF d "error") (jsOrJ d (Json.str m))
    match v with
    | .str s => s
    | j => stringify j

/-- Job status values (server.js uses the strings pending / processing /
completed / failed). -/
inductive JobStatus where
  | pending
  | processing
  | completed
  | failed
deriving DecidableEq

/-- The stored job record.  `completedAt` abstracts the timestamp to its
presence. -/
structure Job where
  status : JobStatus
  result : Option Json := none
  attestation : Option Json := none
  error : Option String := none
  completedAt : Bool := false

/-- Terminal-state effect of `processJob` (server.js lines 226-242): on a
resolved response the job completes and stores `response.data.result` and
`response.data.attestation`; on a rethrown error the outer catch marks it
failed and stores the derived error message. -/
def processJob (call : Nat → AttemptOutcome) : Job :=
  match (retryLoop call).outcome with
  | .ok d =>
    { status := .completed, result := getFieldOpt d "result",
      attestation := getFieldOpt d "attestation", error := none, completedAt := true }
  | .error e =>
    { status := .failed, error := some (errorMsgOf e) }

/-- Spec invariant on terminal job records: exactly one of result / error
is set. -/
def exactlyOneSet (j : Job) : Prop :=
  (j.result.isSome = true ∧ j.error.isSome = false) ∨
    (j.result.isSome = false ∧ j.error.isSome = true)

/-- Well-formed JS value: object key lists have no duplicate keys (a JS
object cannot hold two fields of the same name). -/
inductive WFJson : Json → Prop where
  | null : WFJson .null
  | bool (b : Bool) : WFJson (.bool b)
  | num (lit : String) : WFJson (.num lit)
  | str (s : String) : WFJson (.str s)
  | arr {xs : List Json} (h : ∀ x ∈ xs, WFJson x) : WFJson (.arr xs)
  | obj {l : List (String × Json)} (hnd : (l.map Prod.fst).Nodup)
      (h : ∀ p ∈ l, WFJson p.2) : WFJson (.obj l)

/-- Equality of JS values up to the insertion order of object keys,
recursively. -/
inductive KeyPerm : Json → Json → Prop where
  | null : KeyPerm .null .null
  | bool (b : Bool) : KeyPerm (.bool b) (.bool b)
  | num (lit : String) : KeyPerm (.num lit) (.num lit)
  | str (s : String) : KeyPerm (.str s) (.str s)
  | arr {xs ys : List Json} (hlen : xs.length = ys.length)
      (h : ∀ (i : Nat) (h1 : i < xs.length) (h2 : i < ys.length),
        KeyPerm (xs.get ⟨i, h1⟩) (ys.get ⟨i, h2⟩)) :
      KeyPerm (.arr xs) (.arr ys)
  | obj {l1 l2 : List (String × Json)}
      (hkeys : List.Perm (l1.map Prod.fst) (l2.map Prod.fst))
      (h : ∀ k v1 v2, (k, v1) ∈ l1 → (k, v2) ∈ l2 → KeyPerm v1 v2) :
      KeyPerm (.obj l1) (.obj l2)

/-- Strict key ordering, used to show sorted nodup-key field lists are
unique. -/
def keyLT (a b : String × Json) : Prop := a.1 < b.1

instance : IsAntisymm (String × Json) keyLT :=
  ⟨fun a b h1 h2 => absurd (lt_trans h1 h2) (lt_irrefl a.1)⟩

theorem json_sizeOf_mem_arr {x : Json} {xs : List Json} (h : x ∈ xs) :
    sizeOf x < sizeOf (Json.arr xs) := by
  have h1 := List.sizeOf_lt_of_mem h
  simp only [Json.arr.sizeOf_spec]
  omega

theorem json_sizeOf_mem_obj {p : String × Json} {l : List (String × Json)} (h : p ∈ l) :
    sizeOf p.2 < sizeOf (Json.obj l) := by
  have h1 := List.sizeOf_lt_of_mem h
  have h2 : sizeOf p.2 < sizeOf p := by
    cases p with
    | mk a b => simp only [Prod.mk.sizeOf_spec]; omega
  simp only [Json.obj.sizeOf_spec]
  omega

theorem json_strong_ind (P : Json → Prop)
    (h : ∀ x : Json, (∀ y : Json, sizeOf y < sizeOf x → P y) → P x) : ∀ x, P x := by
  intro x
  have key : ∀ (n : Nat) (y : Json), sizeOf y < n → P y := by
    intro n
    induction n with
    | zero => intro y hy; omega
    | succ m ih => intro y hy; exact h y fun z hz => ih z (by omega)
  exact h x fun y hy => key (sizeOf x) y hy

theorem sortKeysList_eq_map (xs : List Json) :
    sortKeysList xs = xs.map sortKeysRecursively := by
  induction xs with
  | nil => simp [sortKeysList]
  | cons a l ih => simp [sortKeysList, ih]

theorem sortKeysFields_eq_map (l : List (String × Json)) :
    sortKeysFields l = l.map (fun p => (p.1, sortKeysRecursively p.2)) := by
  induction l with
  | nil => simp [sortKeysFields]
  | cons a l ih => simp [sortKeysFields, ih]

theorem list_map_self {α : Type} (f : α → α) (l : List α) (h : ∀ a ∈ l, f a = a) :
    l.map f = l := by
  induction l with
  | nil => rfl
  | cons a l ih =>
    simp only [List.map_cons, List.mem_cons] at *
    exact congrArg₂ _ (h a (Or.inl rfl)) (ih fun b hb => h b (Or.inr hb))

theorem sortPairs_perm (l : List (String × Json)) : List.Perm (sortPairs l) l :=
  List.perm_insertionSort keyLE l

theorem sortPairs_sorted (l : List (String × Json)) : (sortPairs l).Sorted keyLE :=
  List.sorted_insertionSort keyLE l

theorem sortPairs_of_sorted {l : List (String × Json)} (h : l.Sorted keyLE) :
    sortPairs l = l :=
  h.insertionSort_eq

theorem sorted_keyLT_of_nodup {l : List (String × Json)}
    (hs : l.Sorted keyLE) (hnd : (l.map Prod.fst).Nodup) : l.Sorted keyLT := by
  have hne : l.Pairwise (fun a b : String × Json => a.1 ≠ b.1) := by
    have := (List.pairwise_map (R := fun a b : String => a ≠ b)).1 hnd
    exact this
  exact (hs.and hne).imp (fun h => lt_of_le_of_ne h.1 h.2)

/-- Two key-sorted field lists with the same elements and duplicate-free
keys are equal. -/
theorem sorted_nodup_perm_eq {l1 l2 : List (String × Json)}
    (hp : List.Perm l1 l2) (hnd : (l1.map Prod.fst).Nodup)
    (hs1 : l1.Sorted keyLE) (hs2 : l2.Sorted keyLE) : l1 = l2 := by
  have hnd2 : (l2.map Prod.fst).Nodup := ((hp.map Prod.fst).nodup hnd)
  exact List.eq_of_perm_of_sorted hp
    (sorted_keyLT_of_nodup hs1 hnd) (sorted_keyLT_of_nodup hs2 hnd2)

theorem sortPairs_congr_perm {l1 l2 : List (String × Json)}
    (hp : List.Perm l1 l2) (hnd : (l1.map Prod.fst).Nodup) :
    sortPairs l1 = sortPairs l2 := by
  have hperm : List.Perm (sortPairs l1) (sortPairs l2) :=
    ((sortPairs_perm l1).trans hp).trans (sortPairs_perm l2).symm
  have hnd1 : ((sortPairs l1).map Prod.fst).Nodup :=
    ((sortPairs_perm l1).symm.map Prod.fst).nodup hnd
  exact sorted_nodup_perm_eq hperm hnd1 (sortPairs_sorted l1) (sortPairs_sorted l2)

/-- Two association lists with the same key multiset, duplicate-free keys,
and pointwise equal values are permutations of each other. -/
theorem assoc_perm : ∀ (a b : List (String × Json)),
    List.Perm (a.map Prod.fst) (b.map Prod.fst) → (a.map Prod.fst).Nodup →
    (∀ k v1 v2, (k, v1) ∈ a → (k, v2) ∈ b → v1 = v2) → List.Perm a b := by
  intro a
  induction a with
  | nil =>
    intro b hkeys _ _
    have : b.map Prod.fst = [] := hkeys.symm.eq_nil
    cases b with
    | nil => exact List.Perm.refl _
    | cons p b => simp at this
  | cons p a ih =>
    obtain ⟨k, v⟩ := p
    intro b hkeys hnd hpt
    have hkmem : k ∈ b.map Prod.fst := by
      refine hkeys.subset ?_
      simp
    obtain ⟨q, hqb, hqk⟩ := List.mem_map.1 hkmem
    have hq : q = (k, q.2) := Prod.ext hqk rfl
    rw [hq] at hqb
    have hv : v = q.2 := hpt k v q.2 (List.mem_cons_self _ _) hqb
    subst hv
    obtain ⟨s, t, hb⟩ := List.append_of_mem hqb
    subst hb
    have hmid : List.Perm (s ++ (k, q.2) :: t) ((k, q.2) :: (s ++ t)) := List.perm_middle
    have hkeys2 : List.Perm (a.map Prod.fst) ((s ++ t).map Prod.fst) := by
      have h1 : List.Perm ((s ++ (k, q.2) :: t).map Prod.fst)
          (((k, q.2) :: (s ++ t)).map Prod.fst) := hmid.map Prod.fst
      have h2 : List.Perm (k :: a.map Prod.fst) (k :: (s ++ t).map Prod.fst) := by
        simpa using hkeys.trans h1
      exact h2.cons_inv
    have hnd2 : (a.map Prod.fst).Nodup := by
      simp only [List.map_cons, List.nodup_cons] at hnd
      exact hnd.2
    have hpt2 : ∀ k1 w1 w2, (k1, w1) ∈ a → (k1, w2) ∈ s ++ t → w1 = w2 := by
      intro k1 w1 w2 h1 h2
      refine hpt k1 w1 w2 (List.mem_cons_of_mem _ h1) ?_
      rcases List.mem_append.1 h2 with h | h
      · exact List.mem_append.2 (Or.inl h)
      · exact List.mem_append.2 (Or.inr (List.mem_cons_of_mem _ h))
    have hrec := ih (s ++ t) hkeys2 hnd2 hpt2
    exact (hrec.cons (k, q.2)).trans hmid.symm

/-- The recursive key sort is idempotent. -/
theorem sortKeysRecursively_idem : ∀ x : Json,
    sortKeysRecursively (sortKeysRecursively x) = sortKeysRecursively x := by
  refine json_strong_ind _ ?_
  intro x ih
  match x with
  | .null => simp [sortKeysRecursively]
  | .bool b => simp [sortKeysRecursively]
  | .num lit => simp [sortKeysRecursively]
  | .str s => simp [sortKeysRecursively]
  | .arr xs =>
    simp only [sortKeysRecursively, sortKeysList_eq_map, Json.arr.injEq]
    refine list_map_self _ (xs.map sortKeysRecursively) ?_
    intro a ha
    obtain ⟨y, hy, hya⟩ := List.mem_map.1 ha
    rw [← hya]
    exact ih y (json_sizeOf_mem_arr hy)
  | .obj l =>
    simp only [sortKeysRecursively, sortKeysFields_eq_map, Json.obj.injEq]
    have hfix : (sortPairs (l.map fun p => (p.1, sortKeysRecursively p.2))).map
        (fun p => (p.1, sortKeysRecursively p.2)) =
        sortPairs (l.map fun p => (p.1, sortKeysRecursively p.2)) := by
      refine list_map_self _ _ ?_
      intro a ha
      have hmem : a ∈ l.map fun p => (p.1, sortKeysRecursively p.2) :=
        (sortPairs_perm _).subset ha
      obtain ⟨p, hp, hpa⟩ := List.mem_map.1 hmem
      have hs : sortKeysRecursively (sortKeysRecursively p.2) = sortKeysRecursively p.2 :=
        ih p.2 (json_sizeOf_mem_obj hp)
      rw [← hpa]
      simp [hs]
    rw [hfix]
    exact sortPairs_of_sorted (sortPairs_sorted _)

/-- Values equal up to object-key insertion order have the same recursive
key sort, provided object keys are duplicate-free (as in any JS object). -/
theorem sortKeysRecursively_keyPerm : ∀ x : Json, ∀ y : Json,
    KeyPerm x y → WFJson x → sortKeysRecursively x = sortKeysRecursively y := by
  refine json_strong_ind _ ?_
  intro x ih y hp hwf
  cases hp with
  | null => rfl
  | bool b => rfl
  | num lit => rfl
  | str s => rfl
  | arr hlen h =>
    rename_i xs ys
    simp only [sortKeysRecursively, sortKeysList_eq_map, Json.arr.injEq]
    refine List.ext_get (by simp [hlen]) ?_
    intro i h1 h2
    simp only [List.get_eq_getElem, List.getElem_map]
    have h1x : i < xs.length := by simpa using h1
    have h2y : i < ys.length := by simpa using h2
    have hx : xs.get ⟨i, h1x⟩ ∈ xs := List.get_mem xs i h1x
    have hwfx : WFJson (xs.get ⟨i, h1x⟩) := by
      cases hwf with
      | arr hall => exact hall _ hx
    have := ih (xs.get ⟨i, h1x⟩) (json_sizeOf_mem_arr hx) (ys.get ⟨i, h2y⟩)
      (h i h1x h2y) hwfx
    simpa using this
  | obj hkeys h =>
    rename_i l1 l2
    have hnd : (l1.map Prod.fst).Nodup := by
      cases hwf with
      | obj hnd hall => exact hnd
    have hwfv : ∀ p ∈ l1, WFJson p.2 := by
      cases hwf with
      | obj hnd hall => exact hall
    simp only [sortKeysRecursively, sortKeysFields_eq_map, Json.obj.injEq]
    set f : String × Json → String × Json := fun p => (p.1, sortKeysRecursively p.2) with hf
    have hfst : ∀ m : List (String × Json), (m.map f).map Prod.fst = m.map Prod.fst := by
      intro m
      rw [List.map_map]
      rfl
    refine sortPairs_congr_perm ?_ ?_
    · refine assoc_perm (l1.map f) (l2.map f) ?_ ?_ ?_
      · rw [hfst, hfst]; exact hkeys
      · rw [hfst]; exact hnd
      · intro k w1 w2 hw1 hw2
        obtain ⟨p1, hp1, hp1e⟩ := List.mem_map.1 hw1
        obtain ⟨p2, hp2, hp2e⟩ := List.mem_map.1 hw2
        have hk1 : p1.1 = k := congrArg Prod.fst hp1e
        have hk2 : p2.1 = k := congrArg Prod.fst hp2e
        have hm1 : (k, p1.2) ∈ l1 := by
          have : p1 = (k, p1.2) := Prod.ext hk1 rfl
          rwa [this] at hp1
        have hm2 : (k, p2.2) ∈ l2 := by
          have : p2 = (k, p2.2) := Prod.ext hk2 rfl
          rwa [this] at hp2
        have hkp : KeyPerm p1.2 p2.2 := h k p1.2 p2.2 hm1 hm2
        have hv : sortKeysRecursively p1.2 = sortKeysRecursively p2.2 :=
          ih p1.2 (json_sizeOf_mem_obj hp1) p2.2 hkp (hwfv p1 hp1)
        have hw1v : w1 = sortKeysRecursively p1.2 := (congrArg Prod.snd hp1e).symm
        have hw2v : w2 = sortKeysRecursively p2.2 := (congrArg Prod.snd hp2e).symm
        rw [hw1v, hw2v, hv]
    · rw [hfst]; exact hnd

theorem hexVal_lt {c : Char} {a : Nat} (h : hexVal c = some a) : a < 16 := by
  simp only [hexVal] at h
  split at h
  · simp at h; omega
  · split at h
    · simp at h; omega
    · split at h
      · simp at h; omega
      · simp at h

theorem hexVal_hexDigitCh : ∀ x : Nat, x < 16 → hexVal (hexDigitCh x) = some x := by
  decide

theorem hexDecode_lt : ∀ (l : List Char), ∀ b ∈ hexDecode l, b < 256 := by
  intro l
  induction l using hexDecode.induct with
  | case1 c1 c2 rest a b h1 h2 ih =>
    intro x hx
    rw [hexDecode, h1, h2] at hx
    simp only [List.mem_cons] at hx
    rcases hx with h | h
    · have := hexVal_lt h1
      have := hexVal_lt h2
      omega
    · exact ih x h
  | case2 c1 c2 rest h =>
    intro x hx
    rw [hexDecode] at hx
    split at hx
    · rename_i a b h1 h2
      exact absurd (h a b h1 h2) (by simp)
    · simp at hx
  | case3 l h =>
    intro x hx
    rw [hexDecode] at hx
    · simp at hx
    · exact h

theorem hexDecode_hexEncodeL (bs : List Nat) (h : ∀ b ∈ bs, b < 256) :
    hexDecode (hexEncodeL bs) = bs := by
  induction bs with
  | nil => rfl
  | cons b bs ih =>
    have hb : b < 256 := h b (List.mem_cons_self _ _)
    have hd1 : b / 16 < 16 := by omega
    have hd2 : b % 16 < 16 := by omega
    rw [hexEncodeL, hexDecode, hexVal_hexDigitCh _ hd1, hexVal_hexDigitCh _ hd2]
    show (16 * (b / 16) + b % 16) :: hexDecode (hexEncodeL bs) = b :: bs
    have hbeq : 16 * (b / 16) + b % 16 = b := by omega
    rw [hbeq, ih (fun x hx => h x (List.mem_cons_of_mem _ hx))]

theorem hexEncode_inj {b1 b2 : List Nat} (h1 : ∀ b ∈ b1, b < 256)
    (h2 : ∀ b ∈ b2, b < 256) (he : hexEncode b1 = hexEncode b2) : b1 = b2 := by
  have hl : hexEncodeL b1 = hexEncodeL b2 := by
    have := congrArg String.data he
    simpa [hexEncode] using this
  calc b1 = hexDecode (hexEncodeL b1) := (hexDecode_hexEncodeL b1 h1).symm
    _ = hexDecode (hexEncodeL b2) := by rw [hl]
    _ = b2 := hexDecode_hexEncodeL b2 h2

/-- Overall verdict as computed at verifier.js line 328, shared between the
claim proofs. -/
theorem overall_spec (recover : RecoverFn) (oracle : OracleOutcome) (att : Attestation)
    (result : Json) (requestNonce : Option String) :
    (verifyAttestation recover oracle att result requestNonce).overall =
      ((verifyAttestation recover oracle att result requestNonce).resultSignature.verified &&
        ((verifyAttestation recover oracle att result requestNonce).tdxQuote.verified ||
          !truthyOptStr att.intel_quote)) := rfl

/-- Example 20-byte signing-address bytes. -/
def cAddrBytes : List Nat :=
  [18, 52, 86, 120, 144, 171, 205, 239, 18, 52, 86, 120, 144, 171, 205, 239, 18, 52, 86, 120]

/-- Example hex address string (0x-prefixed, lower-case). -/
def cAddr : String := "0x" ++ hexEncode cAddrBytes

/-- A different example address, for failed recovery comparisons. -/
def cAddr2 : String := "0x" ++ hexEncode (List.replicate 20 1)

/-- Example 32-byte nonce. -/
def cNonceBytes : List Nat := List.replicate 32 5

/-- Example nonce hex string. -/
def cNonce : String := hexEncode cNonceBytes

/-- Example 130-hex-char signature (no 0x prefix, as produced by the
enclave). -/
def cSig : String := String.mk (List.replicate 130 'a')

/-- Recovery function that yields the example address. -/
def recGood : RecoverFn := fun _ _ => Except.ok cAddr

/-- Recovery function that yields a different address. -/
def recBad : RecoverFn := fun _ _ => Except.ok cAddr2

/-- Example analytics result with the shape signed by the enclave. -/
def exampleResult : Json :=
  Json.obj
    [("privacy_budget",
        Json.obj [("epsilon_per_query", Json.num "1.0"),
          ("total_epsilon_consumed", Json.num "1.0")]),
      ("risk_metrics", Json.obj [("total_customers", Json.num "1")])]

/-- Quote-less (simulation-mode) attestation bundle. -/
def simAtt : Attestation :=
  { intel_quote := none, signing_address := cAddr, signature := cSig, nonce := cNonce }

/-- Attestation bundle carrying a quote. -/
def qAtt : Attestation :=
  { intel_quote := some "0xdeadbeef", signing_address := cAddr,
    signature := cSig, nonce := cNonce }

/-- Report data bytes binding the example address and nonce. -/
def cRdBytes : List Nat := cAddrBytes ++ List.replicate 12 0 ++ cNonceBytes

/-- Report data with a wrong embedded nonce. -/
def cRdBytesBad : List Nat := cAddrBytes ++ List.replicate 12 0 ++ List.replicate 32 6

/-- Oracle response body with the given report data. -/
def oracleBody (rd : String) : Json :=
  Json.obj
    [("quote",
        Json.obj [("verified", Json.bool true),
          ("body", Json.obj [("reportdata", Json.str rd)])])]

/-- Oracle outcome whose parsed quote carries the matching report data. -/
def oGood : OracleOutcome := Except.ok (oracleBody (hexEncode cRdBytes))

/-- Oracle outcome whose parsed quote carries a mismatched nonce. -/
def oBad : OracleOutcome := Except.ok (oracleBody (hexEncode cRdBytesBad))

/-- C1: the overall verdict of `verifyAttestation` equals
(signature check passed) AND ((quote check passed) OR (no intel_quote
present)); in particular for a quote-less attestation the overall verdict is
exactly the signature sub-check verdict, so it is true when the signature
verifies and false when it does not. -/
theorem verifyAttestation_overall_policy (recover : RecoverFn) (oracle : OracleOutcome)
    (att : Attestation) (result : Json) (requestNonce : Option String) :
    ((verifyAttestation recover oracle att result requestNonce).overall =
      ((verifyAttestation recover oracle att result requestNonce).resultSignature.verified &&
        ((verifyAttestation recover oracle att result requestNonce).tdxQuote.verified ||
          !truthyOptStr att.intel_quote))) ∧
    (att.intel_quote = none →
      (verifyAttestation recover oracle att result requestNonce).overall =
        (verifyAttestation recover oracle att result requestNonce).resultSignature.verified) := by
  refine ⟨overall_spec recover oracle att result requestNonce, ?_⟩
  intro h
  rw [overall_spec]
  simp [h, truthyOptStr]

set_option maxRecDepth 10000 in
/-- Witness for C1: the end-to-end simulation scenario.  With a quote-less
attestation and a recovery that returns the signing address the verdict is
true; with a recovery returning a different address it is false. -/
theorem verifyAttestation_overall_policy_witness :
    (verifyAttestation recGood (Except.error "oracle unreachable") simAtt exampleResult
      (some cNonce)).overall = true ∧
    (verifyAttestation recBad (Except.error "oracle unreachable") simAtt exampleResult
      (some cNonce)).overall = false := by
  constructor
  · have h := (verifyAttestation_overall_policy recGood (Except.error "oracle unreachable")
      simAtt exampleResult (some cNonce)).2 rfl
    rw [h]
    rfl
  · have h := (verifyAttestation_overall_policy recBad (Except.error "oracle unreachable")
      simAtt exampleResult (some cNonce)).2 rfl
    rw [h]
    rfl

/-- Counterexample for C9: for a concrete quote-less attestation the quote
sub-check in the response is reported exactly like a failed check —
`verified = false` with an error string — not with a distinct
not-applicable marker (the result shape has none). -/
theorem verifyAttestation_quoteless_reported_failed_cex :
    (verifyAttestation recGood (Except.error "oracle unreachable") simAtt exampleResult
      (some cNonce)).tdxQuote.verified = false ∧
    (verifyAttestation recGood (Except.error "oracle unreachable") simAtt exampleResult
      (some cNonce)).tdxQuote.error = some "Intel quote missing" :=
  ⟨rfl, rfl⟩

/-- C9 (amended): for a quote-less attestation the quote sub-check is
reported with `verified = false` and the error string `Intel quote missing`
— the same shape as an outright failure — and the not-applicable treatment
exists only in the overall verdict, which reduces to the signature
sub-check alone. -/
theorem verifyAttestation_quoteless_quote_check (recover : RecoverFn)
    (oracle : OracleOutcome) (att : Attestation) (result : Json)
    (requestNonce : Option String) (h : att.intel_quote = none) :
    ((verifyAttestation recover oracle att result requestNonce).tdxQuote =
      { verified := false, intelResult := none,
        error := some "Intel quote missing", message := Json.null }) ∧
    ((verifyAttestation recover oracle att result requestNonce).overall =
      (verifyAttestation recover oracle att result requestNonce).resultSignature.verified) := by
  constructor
  · simp [verifyAttestation, h, truthyOptStr]
  · rw [overall_spec]
    simp [h, truthyOptStr]

/-- Witness for C9: the amended statement applied to the concrete quote-less
attestation. -/
theorem verifyAttestation_quoteless_quote_check_witness :
    ((verifyAttestation recBad (Except.error "oracle unreachable") simAtt exampleResult
      (some cNonce)).tdxQuote =
      { verified := false, intelResult := none,
        error := some "Intel quote missing", message := Json.null }) ∧
    ((verifyAttestation recBad (Except.error "oracle unreachable") simAtt exampleResult
      (some cNonce)).overall =
      (verifyAttestation recBad (Except.error "oracle unreachable") simAtt exampleResult
        (some cNonce)).resultSignature.verified) :=
  verifyAttestation_quoteless_quote_check recBad (Except.error "oracle unreachable")
    simAtt exampleResult (some cNonce) rfl

/-- C10: the overall verdict is independent of the report-data binding
outcome.  Two runs on the same attestation, result, nonce and recovery that
only differ in the oracle-parsed quote contents — and hence possibly in
`bindsAddress`/`embedsNonce` — yield the same overall verdict whenever the
quote sub-check verdicts agree. -/
theorem verifyAttestation_overall_binding_independent (recover : RecoverFn)
    (att : Attestation) (result : Json) (requestNonce : Option String)
    (o1 o2 : OracleOutcome)
    (h : (verifyAttestation recover o1 att result requestNonce).tdxQuote.verified =
      (verifyAttestation recover o2 att result requestNonce).tdxQuote.verified) :
    (verifyAttestation recover o1 att result requestNonce).overall =
      (verifyAttestation recover o2 att result requestNonce).overall := by
  rw [overall_spec, overall_spec, h]
  rfl

set_option maxRecDepth 40000 in
/-- Witness for C10: two oracle responses, one whose report data embeds the
request nonce and one whose report data does not; the binding sub-results
differ but the overall verdicts coincide. -/
theorem verifyAttestation_overall_binding_independent_witness :
    ((verifyAttestation recGood oGood qAtt exampleResult (some cNonce)).reportDataBinding.map
      (fun b => b.embedsNonce) = some true) ∧
    ((verifyAttestation recGood oBad qAtt exampleResult (some cNonce)).reportDataBinding.map
      (fun b => b.embedsNonce) = some false) ∧
    ((verifyAttestation recGood oGood qAtt exampleResult (some cNonce)).overall =
      (verifyAttestation recGood oBad qAtt exampleResult (some cNonce)).overall) :=
  ⟨rfl, rfl,
    verifyAttestation_overall_binding_independent recGood qAtt exampleResult
      (some cNonce) oGood oBad rfl⟩

/-- Shape of the signature sub-result when all signature components are
present (verifier.js lines 304-310). -/
theorem resultSignature_spec (recover : RecoverFn) (oracle : OracleOutcome)
    (att : Attestation) (result : Json) (requestNonce : Option String)
    (hs : truthyStr att.signature = true) (hsa : truthyStr att.signing_address = true)
    (hr : jsTruthy result = true) :
    (verifyAttestation recover oracle att result requestNonce).resultSignature =
      verifyResultSignature recover result att.signature att.signing_address := by
  simp [verifyAttestation, hs, hsa, hr]

/-- C7: a malformed signature (wrong length after 0x-prefixing, or one on
which recovery throws) degrades only the signature sub-check to
`verified = false` with an error attached, and a quote-oracle failure
degrades only the quote sub-check likewise; the quote and binding
sub-checks do not depend on the signature and the signature sub-check does
not depend on the oracle outcome, and `verifyAttestation` is a total
function, so neither condition escapes the overall verdict computation. -/
theorem verifyAttestation_error_isolation (recover : RecoverFn) (oracle : OracleOutcome)
    (att : Attestation) (result : Json) (requestNonce : Option String) :
    (((sig0x att.signature).length ≠ 132 → truthyStr att.signature = true →
      truthyStr att.signing_address = true → jsTruthy result = true →
      structureOk (unwrapResult result) = true →
      ((verifyAttestation recover oracle att result requestNonce).resultSignature.verified
          = false ∧
        (verifyAttestation recover oracle att result
          requestNonce).resultSignature.error.isSome = true)) ∧
    (∀ m : String,
      recover (canonicalize (unwrapResult result)) (sig0x att.signature) = Except.error m →
      truthyStr att.signature = true → truthyStr att.signing_address = true →
      jsTruthy result = true → structureOk (unwrapResult result) = true →
      (sig0x att.signature).length = 132 →
      ((verifyAttestation recover oracle att result requestNonce).resultSignature.verified
          = false ∧
        (verifyAttestation recover oracle att result requestNonce).resultSignature.error
          = some m))) ∧
    ((∀ sig2 : String,
      (verifyAttestation recover oracle att result requestNonce).tdxQuote =
        (verifyAttestation recover oracle { att with signature := sig2 } result
          requestNonce).tdxQuote ∧
      (verifyAttestation recover oracle att result requestNonce).reportDataBinding =
        (verifyAttestation recover oracle { att with signature := sig2 } result
          requestNonce).reportDataBinding) ∧
    (∀ m : String, oracle = Except.error m → truthyOptStr att.intel_quote = true →
      ((verifyAttestation recover oracle att result requestNonce).tdxQuote.verified = false ∧
        (verifyAttestation recover oracle att result requestNonce).tdxQuote.error = some m)) ∧
    (∀ o2 : OracleOutcome,
      (verifyAttestation recover oracle att result requestNonce).resultSignature =
        (verifyAttestation recover o2 att result requestNonce).resultSignature)) := by
  refine ⟨⟨?_, ?_⟩, ⟨fun sig2 => ⟨rfl, rfl⟩, ?_, fun o2 => rfl⟩⟩
  · intro hlen hs hsa hr hstruct
    rw [resultSignature_spec recover oracle att result requestNonce hs hsa hr]
    unfold verifyResultSignature
    simp [hstruct, hlen]
  · intro m hrec hs hsa hr hstruct hlen
    rw [resultSignature_spec recover oracle att result requestNonce hs hsa hr]
    unfold verifyResultSignature
    simp [hstruct, hlen, hrec]
  · intro m hor hq
    constructor <;>
      · simp only [verifyAttestation, hq, if_pos, verifyTdxQuote, hor]
        rfl

/-- Attestation with a too-short signature. -/
def attShortSig : Attestation :=
  { intel_quote := none, signing_address := cAddr, signature := "0xdead", nonce := cNonce }

/-- Recovery function that throws, modelling an undecodable signature. -/
def recThrow : RecoverFn := fun _ _ => Except.error "invalid signature"

set_option maxRecDepth 10000 in
/-- Witness for C7: a 6-character signature yields a failed signature
sub-check with an error; a throwing recovery yields the thrown message as
the sub-check error; a failing oracle yields a failed quote sub-check
carrying the network error. -/
theorem verifyAttestation_error_isolation_witness :
    ((verifyAttestation recGood (Except.error "connect ETIMEDOUT") attShortSig exampleResult
        (some cNonce)).resultSignature.verified = false ∧
      (verifyAttestation recGood (Except.error "connect ETIMEDOUT") attShortSig exampleResult
        (some cNonce)).resultSignature.error.isSome = true) ∧
    ((verifyAttestation recThrow (Except.error "connect ETIMEDOUT") simAtt exampleResult
        (some cNonce)).resultSignature.error = some "invalid signature") ∧
    ((verifyAttestation recGood (Except.error "connect ETIMEDOUT") qAtt exampleResult
        (some cNonce)).tdxQuote.verified = false ∧
      (verifyAttestation recGood (Except.error "connect ETIMEDOUT") qAtt exampleResult
        (some cNonce)).tdxQuote.error = some "connect ETIMEDOUT") := by
  refine ⟨(verifyAttestation_error_isolation recGood (Except.error "connect ETIMEDOUT")
      attShortSig exampleResult (some cNonce)).1.1 (by decide) rfl rfl rfl rfl,
    ((verifyAttestation_error_isolation recThrow (Except.error "connect ETIMEDOUT")
      simAtt exampleResult (some cNonce)).1.2 "invalid signature" rfl rfl rfl rfl rfl
        (by decide)).2,
    (verifyAttestation_error_isolation recGood (Except.error "connect ETIMEDOUT")
      qAtt exampleResult (some cNonce)).2.2.1 "connect ETIMEDOUT" rfl rfl⟩

/-- Recovery function used in the C2 counterexample: recovery succeeds and
yields the checksummed form of the claimed address for any input. -/
def recCexConst : RecoverFn := fun _ _ => Except.ok "0xAB"

/-- Counterexample for C2: for the empty-object result, recovery over the
canonicalized message yields an address equal (case-insensitively) to the
claimed signing address, yet the sub-check returns `verified = false`,
because the structure guard at verifier.js line 163 rejects any result
lacking both `risk_metrics` and `privacy_budget` before recovery runs. -/
theorem verifyResultSignature_structure_guard_cex :
    (verifyResultSignature recCexConst (Json.obj []) cSig "0xab").verified = false ∧
    recCexConst (canonicalize (unwrapResult (Json.obj []))) (sig0x cSig) =
      Except.ok "0xAB" ∧
    lowerStr "0xAB" = lowerStr "0xab" :=
  ⟨rfl, rfl, rfl⟩

/-- C2 (amended): the signature sub-check returns `verified = true` iff the
result passes the structure guard (a truthy `risk_metrics` or
`privacy_budget` after unwrapping a truthy nested `result` field), the
0x-prefixed signature is exactly 132 characters, and ECDSA recovery over
the canonicalized result message succeeds with an address equal to the
claimed signing address under case-insensitive comparison; consequently any
mutation of the signature or message that changes or breaks the recovered
address makes it return false. -/
theorem verifyResultSignature_verified_iff (recover : RecoverFn) (result : Json)
    (signature signingAddress : String) :
    (verifyResultSignature recover result signature signingAddress).verified = true ↔
      (structureOk (unwrapResult result) = true ∧ (sig0x signature).length = 132 ∧
        ∃ a : String, recover (canonicalize (unwrapResult result)) (sig0x signature) =
          Except.ok a ∧ lowerStr a = lowerStr signingAddress) := by
  unfold verifyResultSignature
  by_cases h1 : structureOk (unwrapResult result) = true
  · by_cases h2 : (sig0x signature).length = 132
    · cases hrec : recover (canonicalize (unwrapResult result)) (sig0x signature) with
      | error m => simp [h1, h2, hrec]
      | ok a => simp [h1, h2, hrec]
    · simp [h1, h2]
  · simp [h1]

/-- C3: for an oracle-parsed quote carrying a 64-byte report-data field, a
signing address of at most 32 bytes, and a request nonce that is the
canonical lower-case hex encoding of 32 bytes, the binding sub-check passes
iff the first 32 report-data bytes equal the signing address zero-padded to
32 bytes AND the last 32 bytes equal the nonce, both byte-exactly; by the
two iffs, a mismatch in any single byte of either half makes the
corresponding half (and hence the binding) fail. -/
theorem verifyReportDataBinding_iff (att : Attestation) (requestNonce : String)
    (intelResult : Json) (rdHex : String) (rd A N : List Nat)
    (hq : jsTruthy intelResult = true)
    (hquote : jsTruthy (getF intelResult "quote") = true)
    (hrd : getF (getF (getF intelResult "quote") "body") "reportdata" = Json.str rdHex)
    (hrdEq : rd = hexDecode (stripHex rdHex).toList)
    (hlen : rd.length = 64)
    (hA : A = hexDecode (stripHex att.signing_address).toList)
    (hAlen : A.length ≤ 32)
    (hNonce : stripHex requestNonce = hexEncode N)
    (hNlen : N.length = 32)
    (hNlt : ∀ b ∈ N, b < 256) :
    ((verifyReportDataBinding att requestNonce intelResult).bindsAddress = true ↔
      rd.take 32 = A ++ List.replicate (32 - A.length) 0) ∧
    ((verifyReportDataBinding att requestNonce intelResult).embedsNonce = true ↔
      rd.drop 32 = N) ∧
    (((verifyReportDataBinding att requestNonce intelResult).bindsAddress &&
        (verifyReportDataBinding att requestNonce intelResult).embedsNonce) = true ↔
      (rd.take 32 = A ++ List.replicate (32 - A.length) 0 ∧ rd.drop 32 = N)) := by
  have htr : truthyStr rdHex = true := by
    cases hl : rdHex.data with
    | nil =>
      exfalso
      have hstrip : stripHex rdHex = rdHex := by simp [stripHex, String.toList, hl]
      rw [hstrip] at hrdEq
      rw [hrdEq, String.toList, hl] at hlen
      simp [hexDecode] at hlen
    | cons c cs => simp [truthyStr, String.toList, hl]
  have hdl : (rd.drop 32).length ≤ 32 := by
    rw [List.length_drop, hlen]
  have hBA : (verifyReportDataBinding att requestNonce intelResult).bindsAddress =
      (rd.take 32 == A ++ List.replicate (32 - A.length) 0) := by
    simp only [verifyReportDataBinding, hq, hquote, hrd, htr, Bool.and_self,
      Bool.not_true, Bool.false_eq_true, if_false]
    rw [← hrdEq, ← hA, List.take_of_length_le hAlen]
  have hEN : (verifyReportDataBinding att requestNonce intelResult).embedsNonce =
      (hexEncode (rd.drop 32) == hexEncode N) := by
    simp only [verifyReportDataBinding, hq, hquote, hrd, htr, Bool.and_self,
      Bool.not_true, Bool.false_eq_true, if_false]
    rw [← hrdEq, List.take_of_length_le hdl, hNonce]
  have h1 : (verifyReportDataBinding att requestNonce intelResult).bindsAddress = true ↔
      rd.take 32 = A ++ List.replicate (32 - A.length) 0 := by
    rw [hBA, beq_iff_eq]
  have h2 : (verifyReportDataBinding att requestNonce intelResult).embedsNonce = true ↔
      rd.drop 32 = N := by
    rw [hEN, beq_iff_eq]
    constructor
    · intro h
      refine hexEncode_inj ?_ hNlt h
      intro b hb
      have hbr : b ∈ rd := List.mem_of_mem_drop hb
      rw [hrdEq] at hbr
      exact hexDecode_lt _ b hbr
    · intro h
      rw [h]
  exact ⟨h1, h2, by rw [Bool.and_eq_true]; exact and_congr h1 h2⟩

set_option maxRecDepth 100000 in
/-- Witness for C3: report data built as the example address zero-padded to
32 bytes followed by the example nonce passes both halves of the binding
check. -/
theorem verifyReportDataBinding_iff_witness :
    ((verifyReportDataBinding qAtt cNonce (oracleBody (hexEncode cRdBytes))).bindsAddress &&
      (verifyReportDataBinding qAtt cNonce (oracleBody (hexEncode cRdBytes))).embedsNonce)
      = true := by
  have h := verifyReportDataBinding_iff qAtt cNonce (oracleBody (hexEncode cRdBytes))
    (hexEncode cRdBytes) cRdBytes cAddrBytes cNonceBytes rfl rfl rfl (by decide) (by decide)
    (by decide) (by decide) (by decide) (by decide) (by decide)
  exact h.2.2.mpr ⟨by decide, by decide⟩

/-- Behaviour of the retry loop from attempt `a` when the next `k` attempts
throw and attempt `a + k` resolves. -/
theorem retryFrom_spec (call : Nat → AttemptOutcome) :
    ∀ (k a : Nat) (d : Json), 1 ≤ a → a + k ≤ maxRetries →
    (∀ i, a ≤ i → i < a + k → ∃ e, attemptResult (call i) = Except.error e) →
    attemptResult (call (a + k)) = Except.ok d →
    retryFrom call a (maxRetries + 1 - a) =
      ⟨k + 1, (List.range k).map (fun j => delayOf (a + j)), Except.ok d⟩ := by
  intro k
  induction k with
  | zero =>
    intro a d ha hak hfail hsucc
    have hfuel : maxRetries + 1 - a = (maxRetries - a) + 1 := by
      simp only [maxRetries] at *
      omega
    rw [hfuel, retryFrom]
    simp only [Nat.add_zero] at hsucc
    rw [hsucc]
    simp
  | succ k ih =>
    intro a d ha hak hfail hsucc
    have hfuel : maxRetries + 1 - a = (maxRetries - a) + 1 := by
      simp only [maxRetries] at *
      omega
    obtain ⟨e, he⟩ := hfail a (le_refl a) (by omega)
    have hlt : a < maxRetries := by
      simp only [maxRetries] at *
      omega
    rw [hfuel, retryFrom, he]
    simp only [if_pos hlt]
    have hfuel2 : maxRetries - a = maxRetries + 1 - (a + 1) := by omega
    rw [hfuel2]
    have hsucc2 : attemptResult (call (a + 1 + k)) = Except.ok d := by
      have : a + 1 + k = a + (k + 1) := by omega
      rw [this]
      exact hsucc
    have hrec := ih (a + 1) d (by omega) (by omega)
      (fun i h1 h2 => hfail i (by omega) (by omega)) hsucc2
    rw [hrec]
    have hdelays : (List.range (k + 1)).map (fun j => delayOf (a + j)) =
        delayOf a :: (List.range k).map (fun j => delayOf (a + 1 + j)) := by
      rw [List.range_succ_eq_map, List.map_cons, List.map_map]
      refine congrArg₂ List.cons (by simp) ?_
      refine List.map_congr_left ?_
      intro j hj
      show delayOf (a + (j + 1)) = delayOf (a + 1 + j)
      have harg : a + (j + 1) = a + 1 + j := by omega
      rw [harg]
    rw [hdelays]

/-- C4: if the first `k < 5` attempts of the compute call throw transiently
and attempt `k + 1` resolves, the orchestrator makes exactly `k + 1`
attempts, waits `min(attempt * 2s, 10s)` after each failed attempt, and
completes the job. -/
theorem processJob_retry_backoff (call : Nat → AttemptOutcome) (k : Nat) (d : Json)
    (hk : k < maxRetries)
    (hfail : ∀ i, 1 ≤ i → i ≤ k → ∃ e, attemptResult (call i) = Except.error e)
    (hsucc : attemptResult (call (k + 1)) = Except.ok d) :
    (retryLoop call).attempts = k + 1 ∧
    (retryLoop call).delays = (List.range k).map (fun j => delayOf (j + 1)) ∧
    (retryLoop call).outcome = Except.ok d ∧
    (processJob call).status = JobStatus.completed := by
  have hsucc2 : attemptResult (call (1 + k)) = Except.ok d := by
    rw [Nat.add_comm]
    exact hsucc
  have h := retryFrom_spec call k 1 d (le_refl 1)
    (by simp only [maxRetries] at *; omega)
    (fun i h1 h2 => hfail i h1 (by omega)) hsucc2
  have hloop : retryLoop call =
      ⟨k + 1, (List.range k).map (fun j => delayOf (1 + j)), Except.ok d⟩ := by
    unfold retryLoop
    have : maxRetries = maxRetries + 1 - 1 := rfl
    rw [this]
    exact h
  have hdel : (List.range k).map (fun j => delayOf (1 + j)) =
      (List.range k).map (fun j => delayOf (j + 1)) := by
    refine List.map_congr_left ?_
    intro j hj
    have harg : 1 + j = j + 1 := by omega
    rw [harg]
  refine ⟨by rw [hloop], by rw [hloop]; exact hdel, by rw [hloop], ?_⟩
  unfold processJob
  rw [hloop]

/-- Compute endpoint that throws on the first four attempts and resolves on
the fifth, with the response body shape returned by the analytics service. -/
def flaky4 : Nat → AttemptOutcome := fun i =>
  if i ≤ 4 then AttemptOutcome.netError "read ECONNRESET"
  else AttemptOutcome.httpResp 200
    (Json.obj [("result", exampleResult), ("attestation", Json.obj [])])

/-- Witness for C4: with four transient failures then success, the
orchestrator makes exactly five attempts, waits 2s, 4s, 6s and 8s, and
completes. -/
theorem processJob_retry_backoff_witness :
    (retryLoop flaky4).attempts = 5 ∧
    (retryLoop flaky4).delays = [2000, 4000, 6000, 8000] ∧
    (processJob flaky4).status = JobStatus.completed := by
  have h := processJob_retry_backoff flaky4 4
    (Json.obj [("result", exampleResult), ("attestation", Json.obj [])])
    (by decide)
    (fun i h1 h2 => ⟨JsError.net "read ECONNRESET", by simp [flaky4, attemptResult, h2]⟩)
    rfl
  refine ⟨h.1, ?_, h.2.2.2⟩
  rw [h.2.1]
  decide

/-- Compute endpoint that answers every attempt with HTTP 400 and an error
body, as the analytics service does for a malformed request. -/
def badRequestCall : Nat → AttemptOutcome := fun _ =>
  AttemptOutcome.httpResp 400 (Json.obj [("error", Json.str "No data provided")])

/-- C5 (code behaviour at the failing input): a non-retryable HTTP 400
response is indeed not retried — but because `validateStatus: status < 500`
resolves any status below 500, the orchestrator treats it as success: the
job ends `completed` with no stored result and no stored error, instead of
the `failed` state with a surfaced error that the claim requires. -/
theorem processJob_http400_completes_without_error :
    attemptResult (badRequestCall 1) =
      Except.ok (Json.obj [("error", Json.str "No data provided")]) ∧
    (retryLoop badRequestCall).attempts = 1 ∧
    (processJob badRequestCall).status = JobStatus.completed ∧
    (processJob badRequestCall).result = none ∧
    (processJob badRequestCall).error = none :=
  ⟨rfl, rfl, rfl, rfl, rfl⟩

/-- Compute endpoint that resolves with HTTP 200 and a body that carries no
`result` field (for example the error body of a 4xx, or a malformed
service response). -/
def emptyOkCall : Nat → AttemptOutcome := fun _ =>
  AttemptOutcome.httpResp 200 (Json.obj [])

/-- C8 (code behaviour at the failing input): when the resolved response
body lacks a `result` field the orchestrator still marks the job
`completed`, storing neither a result nor an error — a terminal state in
which NEITHER of  \x7bresult, error\x7d  is set, contradicting the
exactly-one invariant. -/
theorem processJob_completed_terminal_invariant_broken :
    (processJob emptyOkCall).status = JobStatus.completed ∧
    (processJob emptyOkCall).result = none ∧
    (processJob emptyOkCall).error = none ∧
    ¬ exactlyOneSet (processJob emptyOkCall) := by
  refine ⟨rfl, rfl, rfl, ?_⟩
  intro h
  rcases h with ⟨h1, h2⟩ | ⟨h1, h2⟩
  · exact absurd h1 (by decide)
  · exact absurd h2 (by decide)

/-- C6: the canonicalization used for signing is idempotent — re-sorting a
sorted value changes nothing, so serializing an already-canonicalized value
reproduces the same byte string — and its output is independent of the
insertion order of object keys: values equal up to (recursive) key
insertion order canonicalize to the same byte string. -/
theorem canonicalize_idem_orderIndep :
    (∀ x : Json, sortKeysRecursively (sortKeysRecursively x) = sortKeysRecursively x) ∧
    (∀ x : Json, canonicalize (sortKeysRecursively x) = canonicalize x) ∧
    (∀ x y : Json, KeyPerm x y → WFJson x → canonicalize x = canonicalize y) := by
  refine ⟨sortKeysRecursively_idem, ?_, ?_⟩
  · intro x
    unfold canonicalize
    rw [sortKeysRecursively_idem]
  · intro x y hp hwf
    unfold canonicalize
    rw [sortKeysRecursively_keyPerm x y hp hwf]

/-- Example object, fields in one insertion order (values nested). -/
def exObjA : Json :=
  Json.obj [("b", Json.num "1"), ("a", Json.obj [("y", Json.bool true), ("x", Json.null)])]

/-- The same object with both field lists in the opposite insertion order. -/
def exObjB : Json :=
  Json.obj [("a", Json.obj [("x", Json.null), ("y", Json.bool true)]), ("b", Json.num "1")]

/-- Witness for C6: the two insertion orders canonicalize identically. -/
theorem canonicalize_idem_orderIndep_witness :
    canonicalize exObjA = canonicalize exObjB ∧
    sortKeysRecursively (sortKeysRecursively exObjA) = sortKeysRecursively exObjA := by
  refine ⟨canonicalize_idem_orderIndep.2.2 exObjA exObjB ?_ ?_,
    canonicalize_idem_orderIndep.1 exObjA⟩
  · refine KeyPerm.obj ?_ ?_
    · show List.Perm ["b", "a"] ["a", "b"]
      exact List.Perm.swap "a" "b" []
    · intro k v1 v2 h1 h2
      simp only [List.mem_cons, List.not_mem_nil, or_false, Prod.mk.injEq] at h1 h2
      rcases h1 with ⟨hk1, hv1⟩ | ⟨hk1, hv1⟩ <;> rcases h2 with ⟨hk2, hv2⟩ | ⟨hk2, hv2⟩
      · exact absurd (hk1.symm.trans hk2) (by decide)
      · subst hv1
        subst hv2
        exact KeyPerm.num "1"
      · subst hv1
        subst hv2
        refine KeyPerm.obj ?_ ?_
        · show List.Perm ["y", "x"] ["x", "y"]
          exact List.Perm.swap "x" "y" []
        · intro k2 w1 w2 g1 g2
          simp only [List.mem_cons, List.not_mem_nil, or_false, Prod.mk.injEq] at g1 g2
          rcases g1 with ⟨gk1, gw1⟩ | ⟨gk1, gw1⟩ <;> rcases g2 with ⟨gk2, gw2⟩ | ⟨gk2, gw2⟩
          · exact absurd (gk1.symm.trans gk2) (by decide)
          · subst gw1
            subst gw2
            exact KeyPerm.bool true
          · subst gw1
            subst gw2
            exact KeyPerm.null
          · exact absurd (gk1.symm.trans gk2) (by decide)
      · exact absurd (hk1.symm.trans hk2) (by decide)
  · refine WFJson.obj (by decide) ?_
    intro p hp
    simp only [List.mem_cons, List.not_mem_nil, or_false] at hp
    rcases hp with rfl | rfl
    · exact WFJson.num "1"
    · refine WFJson.obj (by decide) ?_
      intro q hq
      simp only [List.mem_cons, List.not_mem_nil, or_false] at hq
      rcases hq with rfl | rfl
      · exact WFJson.bool true
      · exact WFJson.null
